import Mathlib

/-!
Verification of the repetition data-validation program in `main.cpp`.

The program reads tokens from `cin`, re-prompting until a token of the
target type arrives (`read_int`, `read_float`, `read_element`), and the
demo functions `demo_*_type_and_range_checking` wrap those readers in an
inclusive range-checking retry loop.

The embedding models `cin` at the character level: a stream is the list of
pending unread characters together with the fail flag.  Extraction
(`cin >> x`) skips leading whitespace, consumes the longest prefix that is
lexically valid for the target type, and sets the fail flag when no such
prefix exists.  The unbounded `while (!cin.good())` retry loops are
modelled with an explicit fuel parameter: a result of `none` means the
loop was still running when the fuel ran out (the C++ loop has no other
way to stop than returning a validated value).  Emitted error messages are
collected in a list, in order.
-/

/-- The state of the `cin` object: the buffer of pending unread characters
and the fail flag that `cin` sets when an extraction fails. -/
structure IStream where
  buf : List Char
  failed : Bool
deriving DecidableEq

namespace IStream

/-- The `cin.good()` query: true when the last requested operation
succeeded, i.e. the fail flag is clear. -/
def good (s : IStream) : Bool := !s.failed

/-- The `cin.clear()` method: re-enable a disabled stream by clearing the
fail flag; the buffer is untouched. -/
def clear (s : IStream) : IStream := ⟨s.buf, false⟩

/-- Discard up to `n` characters from a buffer, stopping early right after
a character equal to the delimiter `d` has been discarded. -/
def dropUpto : Nat → Char → List Char → List Char
  | _, _, [] => []
  | 0, _, cs => cs
  | n + 1, d, c :: cs => if c = d then cs else dropUpto n d cs

/-- The `cin.ignore(n, d)` method: discard up to `n` characters from the
buffer or until the delimiter `d` has been discarded, whichever comes
first.  On a stream whose fail flag is set the method does nothing. -/
def ignore (s : IStream) (n : Nat) (d : Char) : IStream :=
  if s.failed then s else ⟨dropUpto n d s.buf, false⟩

end IStream

/-- The whitespace characters skipped by formatted extraction. -/
def isWS (c : Char) : Bool := c == ' ' || c == '\n' || c == '\t' || c == '\r'

/-- Skip leading whitespace, as formatted `cin >>` extraction does. -/
def dropWS : List Char → List Char
  | [] => []
  | c :: cs => if isWS c then dropWS cs else c :: cs

/-- Numeric value of a list of decimal digit characters. -/
def digitsVal (ds : List Char) : Nat :=
  ds.foldl (fun a c => 10 * a + (c.toNat - 48)) 0

/-- The largest value of the target's 32-bit `int`, 2^31 - 1. -/
def intMaxMag : Nat := 2147483647

/-- The magnitude of the smallest 32-bit `int` value, 2^31. -/
def intMinMag : Nat := 2147483648

/-- Lexical scan of an `int` token at the front of a (whitespace-free)
buffer: an optional sign followed by at least one decimal digit.  Returns
the parsed value (or `none` on failure) and the unconsumed remainder of
the buffer; the consumed characters are exactly the matched prefix.  As
in C++11 formatted extraction, a digit literal whose value lies outside
the `int` range consumes its digits but fails (the stored clamped value
is never observable, since the reader's loop treats the failure as a
type error and discards it). -/
def extractIntCore (cs : List Char) : Option Int × List Char :=
  match cs with
  | [] => (none, [])
  | c :: r =>
    if c = '-' then
      let ds := r.takeWhile Char.isDigit
      if ds = [] then (none, r)
      else if digitsVal ds ≤ intMinMag then
        (some (-((digitsVal ds : Nat) : Int)), r.dropWhile Char.isDigit)
      else (none, r.dropWhile Char.isDigit)
    else if c = '+' then
      let ds := r.takeWhile Char.isDigit
      if ds = [] then (none, r)
      else if digitsVal ds ≤ intMaxMag then
        (some ((digitsVal ds : Nat) : Int), r.dropWhile Char.isDigit)
      else (none, r.dropWhile Char.isDigit)
    else
      let ds := (c :: r).takeWhile Char.isDigit
      if ds = [] then (none, c :: r)
      else if digitsVal ds ≤ intMaxMag then
        (some ((digitsVal ds : Nat) : Int), (c :: r).dropWhile Char.isDigit)
      else (none, (c :: r).dropWhile Char.isDigit)

/-- The `cin >> userval` operation for an `int` target: a disabled stream
ignores the request; otherwise leading whitespace is skipped, the int
token at the front is consumed, and the fail flag is set exactly when no
in-range int token is present (lexical failure or out-of-range value). -/
def extractInt (s : IStream) : Option Int × IStream :=
  if s.failed then (none, s)
  else
    let p := extractIntCore (dropWS s.buf)
    (p.1, ⟨p.2, p.1.isNone⟩)

/-- The rational value of a decimal literal with sign `sign`, mantissa
`m`, `scale` digits after the decimal point, and a decimal exponent of
magnitude `e` whose sign is `eneg`.  Built with a single `Rat.divInt` so
that concrete values reduce inside the kernel. -/
def decValue (sign : Bool) (m scale : Nat) (eneg : Bool) (e : Nat) : Rat :=
  let n : Int := if sign then -(m : Int) else (m : Int)
  if eneg then Rat.divInt n ((10 : Int) ^ (scale + e))
  else Rat.divInt (n * (10 : Int) ^ e) ((10 : Int) ^ scale)

/-- Exponent part of a floating-point token, after the `e`/`E` has been
consumed: an optional sign and at least one digit. -/
def parseExpAfterE (sign : Bool) (m scale : Nat) (cs : List Char) :
    Option Rat × List Char :=
  match cs with
  | '-' :: r =>
    let ds := r.takeWhile Char.isDigit
    if ds = [] then (none, r)
    else (some (decValue sign m scale true (digitsVal ds)), r.dropWhile Char.isDigit)
  | '+' :: r =>
    let ds := r.takeWhile Char.isDigit
    if ds = [] then (none, r)
    else (some (decValue sign m scale false (digitsVal ds)), r.dropWhile Char.isDigit)
  | r =>
    let ds := r.takeWhile Char.isDigit
    if ds = [] then (none, r)
    else (some (decValue sign m scale false (digitsVal ds)), r.dropWhile Char.isDigit)

/-- Optional exponent part of a floating-point token. -/
def parseExpOpt (sign : Bool) (m scale : Nat) (cs : List Char) :
    Option Rat × List Char :=
  match cs with
  | 'e' :: r => parseExpAfterE sign m scale r
  | 'E' :: r => parseExpAfterE sign m scale r
  | _ => (some (decValue sign m scale false 0), cs)

/-- Unsigned part of a floating-point token: integer digits, an optional
fraction, and an optional exponent; at least one mantissa digit is
required.  Float values are modelled as exact rationals. -/
def parseUnsignedFloat (sign : Bool) (cs : List Char) : Option Rat × List Char :=
  let ip := cs.takeWhile Char.isDigit
  let r1 := cs.dropWhile Char.isDigit
  match r1 with
  | '.' :: r2 =>
    let fp := r2.takeWhile Char.isDigit
    let r3 := r2.dropWhile Char.isDigit
    if ip = [] ∧ fp = [] then (none, r3)
    else parseExpOpt sign (digitsVal ip * 10 ^ fp.length + digitsVal fp) fp.length r3
  | _ =>
    if ip = [] then (none, r1)
    else parseExpOpt sign (digitsVal ip) 0 r1

/-- The `cin >> userval` operation for a `float` target, with float values
modelled as exact rationals. -/
def extractFloat (s : IStream) : Option Rat × IStream :=
  if s.failed then (none, s)
  else
    let cs := dropWS s.buf
    let p :=
      match cs with
      | '-' :: r => parseUnsignedFloat true r
      | '+' :: r => parseUnsignedFloat false r
      | _ => parseUnsignedFloat false cs
    (p.1, ⟨p.2, p.1.isNone⟩)

/-- The `cin >> boolalpha >> userval` operation for a `bool` target, which
the source uses for `read_element` under the commented-out
`typedef bool element` configuration: with `boolalpha` set, extraction
matches exactly the textual names `true` and `false` and fails on
anything else (in particular on the numeric forms `1` and `0`). -/
def extractBoolAlpha (s : IStream) : Option Bool × IStream :=
  if s.failed then (none, s)
  else
    match dropWS s.buf with
    | 't' :: 'r' :: 'u' :: 'e' :: r => (some true, ⟨r, false⟩)
    | 'f' :: 'a' :: 'l' :: 's' :: 'e' :: r => (some false, ⟨r, false⟩)
    | cs => (none, ⟨cs, true⟩)

/-- The retry message of `read_int`. -/
def intErrMsg : String := "Invalid data type, should be a whole number, try again: "

/-- The retry message of `read_float`. -/
def floatErrMsg : String := "Invalid data type, should be a fractional number, try again: "

/-- The display name of the `element` type under the active
`typedef int element` configuration block. -/
def ELEMENT_NAME : String := "whole number"

/-- The low bound of the `element` demo under the active configuration. -/
def ELEMENT_LOW : Int := 17

/-- The high bound of the `element` demo under the active configuration. -/
def ELEMENT_HIGH : Int := 52

/-- The retry message of `read_element` under the active configuration. -/
def elemErrMsg : String :=
  "Invalid data type, should be an element (" ++ ELEMENT_NAME ++ "), try again: "

/-- The retry message of `read_element` under the commented-out
`typedef bool element` configuration, whose `ELEMENT_NAME` is shown as
the boolean display name. -/
def elemBoolErrMsg : String :=
  "Invalid data type, should be an element (boolean), try again: "

/-- The out-of-range retry message, with the bounds rendered as text. -/
def rangeMsg (low high : String) : String :=
  "Invalid range, should be between " ++ low ++ " and " ++ high ++ ", try again: "

/-- The out-of-range retry message for integer bounds. -/
def rangeMsgInt (low high : Int) : String := rangeMsg (toString low) (toString high)

/-- The `while (!cin.good())` retry loop shared by the three readers,
parameterised by the extraction operation and the retry message.  The
argument `p` is the result of the extraction attempt just performed: if
the stream is good the extracted value is returned with no message,
otherwise the stream is cleared, the bad input is discarded with
`ignore(80, newline)`, the retry message is emitted and extraction is
re-attempted.  The fuel bounds the number of retries; `none` means the
loop is still running. -/
def readLoop {α : Type} (ex : IStream → Option α × IStream) (msg : String) :
    Nat → Option α × IStream → Option (α × IStream × List String)
  | 0, p => if p.2.good then p.1.map (fun v => (v, p.2, [])) else none
  | f + 1, p =>
    if p.2.good then p.1.map (fun v => (v, p.2, []))
    else
      (readLoop ex msg f (ex ((p.2.clear).ignore 80 '\n'))).map
        (fun x => (x.1, x.2.1, msg :: x.2.2))

/-- A repetition type-checking reader: attempt extraction once, then run
the retry loop. -/
def readT {α : Type} (ex : IStream → Option α × IStream) (msg : String)
    (fuel : Nat) (s : IStream) : Option (α × IStream × List String) :=
  readLoop ex msg fuel (ex s)

/-- `read_int` from the source: repetition type-checking validation for
`int` values. -/
def read_int : Nat → IStream → Option (Int × IStream × List String) :=
  readT extractInt intErrMsg

/-- `read_float` from the source: repetition type-checking validation for
`float` values. -/
def read_float : Nat → IStream → Option (Rat × IStream × List String) :=
  readT extractFloat floatErrMsg

/-- `read_element` from the source, under the active
`typedef int element` configuration (the `boolalpha` manipulator has no
effect on `int` extraction). -/
def read_element : Nat → IStream → Option (Int × IStream × List String) :=
  readT extractInt elemErrMsg

/-- `read_element` under the commented-out `typedef bool element`
configuration: extraction with `boolalpha` set. -/
def read_element_bool : Nat → IStream → Option (Bool × IStream × List String) :=
  readT extractBoolAlpha elemBoolErrMsg

/-- The range-checking retry loop of the `demo_*_type_and_range_checking`
functions, parameterised by the type-checking reader and the bounds.  The
argument is the result of the reader call just performed; while the value
is out of range, the out-of-range message is emitted and the reader is
called again.  The fuel `fuelR` bounds the number of range retries, and
`fuel` is the fuel handed to each reader call. -/
def rangeLoopGo {α : Type} [LinearOrder α]
    (reader : Nat → IStream → Option (α × IStream × List String))
    (low high : α) (msg : String) :
    Nat → Nat → Option (α × IStream × List String) → Option (α × IStream × List String)
  | _, _, none => none
  | 0, _, some (v, s, out) => if v < low ∨ v > high then none else some (v, s, out)
  | fR + 1, fuel, some (v, s, out) =>
    if v < low ∨ v > high then
      (rangeLoopGo reader low high msg fR fuel (reader fuel s)).map
        (fun x => (x.1, x.2.1, out ++ msg :: x.2.2))
    else some (v, s, out)

/-- A combined type-checking and range-checking reader: call the
type-checking reader once, then run the range retry loop. -/
def read_in_range {α : Type} [LinearOrder α]
    (reader : Nat → IStream → Option (α × IStream × List String))
    (low high : α) (msg : String) (fuelR fuel : Nat) (s : IStream) :
    Option (α × IStream × List String) :=
  rangeLoopGo reader low high msg fuelR fuel (reader fuel s)

/-- The range-checked `int` reader with caller-supplied bounds. -/
def read_int_in_range (low high : Int) :
    Nat → Nat → IStream → Option (Int × IStream × List String) :=
  read_in_range read_int low high (rangeMsgInt low high)

/-- The validation core of `demo_int_type_and_range_checking`: `read_int`
wrapped in the range loop with bounds 6 and 37. -/
def demo_int_type_and_range_checking :
    Nat → Nat → IStream → Option (Int × IStream × List String) :=
  read_int_in_range 6 37

/-- The low bound 5.5 of the float demo, written with `Rat.divInt` so that
concrete runs reduce; `FLOAT_DEMO_LOW_eq` identifies it with the literal. -/
def FLOAT_DEMO_LOW : Rat := Rat.divInt 55 10

/-- The high bound 42.8 of the float demo. -/
def FLOAT_DEMO_HIGH : Rat := Rat.divInt 428 10

/-- The validation core of `demo_float_type_and_range_checking`:
`read_float` wrapped in the range loop with bounds 5.5 and 42.8. -/
def demo_float_type_and_range_checking :
    Nat → Nat → IStream → Option (Rat × IStream × List String) :=
  read_in_range read_float FLOAT_DEMO_LOW FLOAT_DEMO_HIGH (rangeMsg "5.5" "42.8")

/-- The validation core of `demo_element_type_and_range_checking` under
the active configuration: `read_element` wrapped in the range loop with
bounds `ELEMENT_LOW` and `ELEMENT_HIGH`. -/
def demo_element_type_and_range_checking :
    Nat → Nat → IStream → Option (Int × IStream × List String) :=
  read_in_range read_element ELEMENT_LOW ELEMENT_HIGH
    (rangeMsgInt ELEMENT_LOW ELEMENT_HIGH)

/-- Instrumented version of the range retry loop that additionally
records, in order, every value to which a range comparison is applied.
Its first component agrees with `rangeLoopGo`. -/
def rangeLoopTr {α : Type} [LinearOrder α]
    (reader : Nat → IStream → Option (α × IStream × List String))
    (low high : α) (msg : String) :
    Nat → Nat → Option (α × IStream × List String) →
      Option (α × IStream × List String) × List α
  | _, _, none => (none, [])
  | 0, _, some (v, s, out) =>
    if v < low ∨ v > high then (none, [v]) else (some (v, s, out), [v])
  | fR + 1, fuel, some (v, s, out) =>
    if v < low ∨ v > high then
      let x := rangeLoopTr reader low high msg fR fuel (reader fuel s)
      (x.1.map (fun y => (y.1, y.2.1, out ++ msg :: y.2.2)), v :: x.2)
    else (some (v, s, out), [v])

/-- Instrumented combined reader recording the range-compared values. -/
def read_in_range_tr {α : Type} [LinearOrder α]
    (reader : Nat → IStream → Option (α × IStream × List String))
    (low high : α) (msg : String) (fuelR fuel : Nat) (s : IStream) :
    Option (α × IStream × List String) × List α :=
  rangeLoopTr reader low high msg fuelR fuel (reader fuel s)

/-- Head-failure test for an `int` token body: extraction of the digit
part fails right away. -/
def intHeadFailsB : List Char → Bool
  | [] => true
  | c :: _ => !c.isDigit

/-- A token on which `int` extraction fails: nonempty, free of whitespace,
short enough for a single `ignore(80, newline)` call to clear the line,
and not starting (after an optional sign) with a digit. -/
def badIntToken (b : List Char) : Prop :=
  b ≠ [] ∧ b.length ≤ 80 ∧ b.all (fun c => !isWS c) = true ∧
    (match b with
     | [] => false
     | c :: r => if c = '-' then intHeadFailsB r
                 else if c = '+' then intHeadFailsB r
                 else !c.isDigit) = true

theorem not_ws_of_digit {c : Char} (h : c.isDigit = true) : isWS c = false := by
  have h1 : c ≠ ' ' := by rintro rfl; exact absurd h (by decide)
  have h2 : c ≠ '\n' := by rintro rfl; exact absurd h (by decide)
  have h3 : c ≠ '\t' := by rintro rfl; exact absurd h (by decide)
  have h4 : c ≠ '\r' := by rintro rfl; exact absurd h (by decide)
  simp [isWS, h1, h2, h3, h4]

theorem digit_ne_dash {c : Char} (h : c.isDigit = true) : c ≠ '-' := by
  rintro rfl; exact absurd h (by decide)

theorem digit_ne_plus {c : Char} (h : c.isDigit = true) : c ≠ '+' := by
  rintro rfl; exact absurd h (by decide)

theorem dropWS_cons_of_not_ws {c : Char} {cs : List Char} (h : isWS c = false) :
    dropWS (c :: cs) = c :: cs := by
  simp [dropWS, h]

theorem dropWS_cons_nl (cs : List Char) : dropWS ('\n' :: cs) = dropWS cs := by
  simp [dropWS, isWS]

theorem takeWhile_dropWhile_append (p : Char → Bool) (l : List Char) (c : Char)
    (t : List Char) (hl : ∀ x ∈ l, p x = true) (hc : p c = false) :
    (l ++ c :: t).takeWhile p = l ∧ (l ++ c :: t).dropWhile p = c :: t := by
  induction l with
  | nil => simp [List.takeWhile_cons, List.dropWhile_cons, hc]
  | cons a l ih =>
    have ha : p a = true := hl a (List.mem_cons_self a l)
    have ih' := ih (fun x hx => hl x (List.mem_cons_of_mem a hx))
    simp [List.takeWhile_cons, List.dropWhile_cons, ha, ih'.1, ih'.2]

theorem readLoop_good {α : Type} (ex : IStream → Option α × IStream) (msg : String)
    (f : Nat) (p : Option α × IStream) (h : p.2.failed = false) :
    readLoop ex msg f p = p.1.map (fun v => (v, p.2, [])) := by
  have hg : p.2.good = true := by simp [IStream.good, h]
  cases f <;> simp [readLoop, hg]

theorem readLoop_bad_zero {α : Type} (ex : IStream → Option α × IStream) (msg : String)
    (p : Option α × IStream) (h : p.2.failed = true) :
    readLoop ex msg 0 p = none := by
  simp [readLoop, IStream.good, h]

theorem readLoop_bad_succ {α : Type} (ex : IStream → Option α × IStream) (msg : String)
    (f : Nat) (p : Option α × IStream) (h : p.2.failed = true) :
    readLoop ex msg (f + 1) p =
      (readLoop ex msg f (ex ((p.2.clear).ignore 80 '\n'))).map
        (fun x => (x.1, x.2.1, msg :: x.2.2)) := by
  simp [readLoop, IStream.good, h]


theorem map_msg_eq_some {α : Type} {o : Option (α × IStream × List String)}
    {msg : String} {v : α} {s' : IStream} {out : List String}
    (h : o.map (fun x => (x.1, x.2.1, msg :: x.2.2)) = some (v, s', out)) :
    ∃ out', o = some (v, s', out') ∧ out = msg :: out' := by
  cases o with
  | none => simp at h
  | some x =>
    obtain ⟨v1, s1, out1⟩ := x
    simp only [Option.map_some', Option.some.injEq, Prod.mk.injEq] at h
    exact ⟨out1, by simp [h.1, h.2.1], h.2.2.symm⟩

theorem map_ret_eq_some {α : Type} {r : Option α} {s : IStream}
    {v : α} {s' : IStream} {out : List String}
    (h : r.map (fun v => (v, s, ([] : List String))) = some (v, s', out)) :
    r = some v ∧ s = s' ∧ out = [] := by
  cases r with
  | none => simp at h
  | some w =>
    simp only [Option.map_some', Option.some.injEq, Prod.mk.injEq] at h
    exact ⟨by simp [h.1], h.2.1, h.2.2.symm⟩

theorem readLoop_ret_good {α : Type} (ex : IStream → Option α × IStream) (msg : String) :
    ∀ (f : Nat) (p : Option α × IStream) (v : α) (s' : IStream) (out : List String),
      readLoop ex msg f p = some (v, s', out) → s'.failed = false := by
  intro f
  induction f with
  | zero =>
    intro p v s' out h
    cases hb : p.2.failed with
    | false =>
      rw [readLoop_good ex msg 0 p hb] at h
      obtain ⟨_, hs, _⟩ := map_ret_eq_some h
      rw [← hs]; exact hb
    | true => rw [readLoop_bad_zero ex msg p hb] at h; exact absurd h (by simp)
  | succ f ih =>
    intro p v s' out h
    cases hb : p.2.failed with
    | false =>
      rw [readLoop_good ex msg (f + 1) p hb] at h
      obtain ⟨_, hs, _⟩ := map_ret_eq_some h
      rw [← hs]; exact hb
    | true =>
      rw [readLoop_bad_succ ex msg f p hb] at h
      obtain ⟨out', hx, _⟩ := map_msg_eq_some h
      exact ih _ v s' out' hx

theorem readLoop_ret_src {α : Type} (ex : IStream → Option α × IStream) (msg : String) :
    ∀ (f : Nat) (p : Option α × IStream) (v : α) (s' : IStream) (out : List String),
      readLoop ex msg f p = some (v, s', out) →
        p = (some v, s') ∨ ∃ s₀, ex s₀ = (some v, s') := by
  intro f
  induction f with
  | zero =>
    intro p v s' out h
    cases hb : p.2.failed with
    | false =>
      rw [readLoop_good ex msg 0 p hb] at h
      obtain ⟨hr, hs, _⟩ := map_ret_eq_some h
      exact Or.inl (by rw [← hr, ← hs])
    | true => rw [readLoop_bad_zero ex msg p hb] at h; exact absurd h (by simp)
  | succ f ih =>
    intro p v s' out h
    cases hb : p.2.failed with
    | false =>
      rw [readLoop_good ex msg (f + 1) p hb] at h
      obtain ⟨hr, hs, _⟩ := map_ret_eq_some h
      exact Or.inl (by rw [← hr, ← hs])
    | true =>
      rw [readLoop_bad_succ ex msg f p hb] at h
      obtain ⟨out', hx, _⟩ := map_msg_eq_some h
      rcases ih _ v s' out' hx with hcase | hcase
      · exact Or.inr ⟨(p.2.clear).ignore 80 '\n', hcase⟩
      · exact Or.inr hcase


/-! ### Lemmas about `int` extraction on line-structured input -/

theorem extractInt_nl (cs : List Char) :
    extractInt ⟨'\n' :: cs, false⟩ = extractInt ⟨cs, false⟩ := by
  simp [extractInt, dropWS_cons_nl]

theorem read_int_eq (f : Nat) (s : IStream) :
    read_int f s = readLoop extractInt intErrMsg f (extractInt s) := rfl

theorem read_int_nl (f : Nat) (cs : List Char) :
    read_int f ⟨'\n' :: cs, false⟩ = read_int f ⟨cs, false⟩ := by
  simp [read_int, readT, extractInt_nl]

theorem map_out_eq_some {α : Type} (g : List String → List String)
    {o : Option (α × IStream × List String)} {v : α} {s' : IStream} {out : List String}
    (h : o.map (fun x => (x.1, x.2.1, g x.2.2)) = some (v, s', out)) :
    ∃ out', o = some (v, s', out') ∧ out = g out' := by
  cases o with
  | none => simp at h
  | some x =>
    obtain ⟨v1, s1, out1⟩ := x
    simp only [Option.map_some', Option.some.injEq, Prod.mk.injEq] at h
    exact ⟨out1, by simp [h.1, h.2.1], h.2.2.symm⟩

theorem rangeLoopGo_none {α : Type} [LinearOrder α]
    (reader : Nat → IStream → Option (α × IStream × List String))
    (low high : α) (msg : String) (fR fuel : Nat) :
    rangeLoopGo reader low high msg fR fuel none = none := by
  cases fR <;> rfl

theorem rangeLoopGo_in_range {α : Type} [LinearOrder α]
    (reader : Nat → IStream → Option (α × IStream × List String))
    (low high : α) (msg : String) (fR fuel : Nat) (v : α) (s : IStream)
    (out : List String) (h : ¬(v < low ∨ v > high)) :
    rangeLoopGo reader low high msg fR fuel (some (v, s, out)) = some (v, s, out) := by
  cases fR <;> simp [rangeLoopGo, h]

theorem rangeLoopGo_out_zero {α : Type} [LinearOrder α]
    (reader : Nat → IStream → Option (α × IStream × List String))
    (low high : α) (msg : String) (fuel : Nat) (v : α) (s : IStream)
    (out : List String) (h : v < low ∨ v > high) :
    rangeLoopGo reader low high msg 0 fuel (some (v, s, out)) = none := by
  simp [rangeLoopGo, h]

theorem rangeLoopGo_out_succ {α : Type} [LinearOrder α]
    (reader : Nat → IStream → Option (α × IStream × List String))
    (low high : α) (msg : String) (fR fuel : Nat) (v : α) (s : IStream)
    (out : List String) (h : v < low ∨ v > high) :
    rangeLoopGo reader low high msg (fR + 1) fuel (some (v, s, out)) =
      (rangeLoopGo reader low high msg fR fuel (reader fuel s)).map
        (fun x => (x.1, x.2.1, out ++ msg :: x.2.2)) := by
  simp [rangeLoopGo, h]

theorem rangeLoopGo_bounds {α : Type} [LinearOrder α]
    (reader : Nat → IStream → Option (α × IStream × List String))
    (low high : α) (msg : String) (fuel : Nat) :
    ∀ (fR : Nat) (r : Option (α × IStream × List String)) (v : α) (s : IStream)
      (out : List String),
      rangeLoopGo reader low high msg fR fuel r = some (v, s, out) →
        low ≤ v ∧ v ≤ high := by
  intro fR
  induction fR with
  | zero =>
    intro r v s out h
    match r with
    | none => rw [rangeLoopGo_none] at h; exact absurd h (by simp)
    | some (v0, s0, out0) =>
      by_cases hc : v0 < low ∨ v0 > high
      · rw [rangeLoopGo_out_zero reader low high msg fuel v0 s0 out0 hc] at h
        exact absurd h (by simp)
      · rw [rangeLoopGo_in_range reader low high msg 0 fuel v0 s0 out0 hc] at h
        push_neg at hc
        have hv : v0 = v := by simpa using congrArg (fun y => y.map Prod.fst) h
        exact hv ▸ hc
  | succ fR ih =>
    intro r v s out h
    match r with
    | none => rw [rangeLoopGo_none] at h; exact absurd h (by simp)
    | some (v0, s0, out0) =>
      by_cases hc : v0 < low ∨ v0 > high
      · rw [rangeLoopGo_out_succ reader low high msg fR fuel v0 s0 out0 hc] at h
        obtain ⟨out', hx, _⟩ := map_out_eq_some (fun l => out0 ++ msg :: l) h
        exact ih (reader fuel s0) v s out' hx
      · rw [rangeLoopGo_in_range reader low high msg (fR + 1) fuel v0 s0 out0 hc] at h
        push_neg at hc
        have hv : v0 = v := by simpa using congrArg (fun y => y.map Prod.fst) h
        exact hv ▸ hc

theorem rangeLoopTr_fst {α : Type} [LinearOrder α]
    (reader : Nat → IStream → Option (α × IStream × List String))
    (low high : α) (msg : String) (fuel : Nat) :
    ∀ (fR : Nat) (r : Option (α × IStream × List String)),
      (rangeLoopTr reader low high msg fR fuel r).1 =
        rangeLoopGo reader low high msg fR fuel r := by
  intro fR
  induction fR with
  | zero =>
    intro r
    match r with
    | none => rfl
    | some (v, s, out) =>
      by_cases hc : v < low ∨ v > high <;> simp [rangeLoopTr, rangeLoopGo, hc]
  | succ fR ih =>
    intro r
    match r with
    | none => rfl
    | some (v, s, out) =>
      by_cases hc : v < low ∨ v > high <;> simp [rangeLoopTr, rangeLoopGo, hc, ih]

theorem rangeLoopTr_src {α : Type} [LinearOrder α]
    (reader : Nat → IStream → Option (α × IStream × List String))
    (low high : α) (msg : String) (fuel : Nat) :
    ∀ (fR : Nat) (s₀ : IStream) (v : α),
      v ∈ (rangeLoopTr reader low high msg fR fuel (reader fuel s₀)).2 →
        ∃ s' s₁ out, reader fuel s' = some (v, s₁, out) := by
  intro fR
  induction fR with
  | zero =>
    intro s₀ v hv
    cases hr : reader fuel s₀ with
    | none => rw [hr] at hv; simp [rangeLoopTr] at hv
    | some x =>
      obtain ⟨v0, s1, out0⟩ := x
      rw [hr] at hv
      by_cases hc : v0 < low ∨ v0 > high
      · simp [rangeLoopTr, hc] at hv
        exact hv ▸ ⟨s₀, s1, out0, hr⟩
      · simp [rangeLoopTr, hc] at hv
        exact hv ▸ ⟨s₀, s1, out0, hr⟩
  | succ fR ih =>
    intro s₀ v hv
    cases hr : reader fuel s₀ with
    | none => rw [hr] at hv; simp [rangeLoopTr] at hv
    | some x =>
      obtain ⟨v0, s1, out0⟩ := x
      rw [hr] at hv
      by_cases hc : v0 < low ∨ v0 > high
      · simp only [rangeLoopTr, if_pos hc, List.mem_cons] at hv
        rcases hv with hv | hv
        · exact hv ▸ ⟨s₀, s1, out0, hr⟩
        · exact ih s1 v hv
      · simp [rangeLoopTr, hc] at hv
        exact hv ▸ ⟨s₀, s1, out0, hr⟩

theorem read_in_range_tr_none {α : Type} [LinearOrder α]
    (reader : Nat → IStream → Option (α × IStream × List String))
    (low high : α) (msg : String) (fR fuel : Nat) (s : IStream)
    (h : reader fuel s = none) :
    (read_in_range_tr reader low high msg fR fuel s).2 = [] := by
  rw [read_in_range_tr, h]
  cases fR <;> rfl

/-! ### Remaining auxiliary lemmas -/

theorem extractInt_failed_iff (s : IStream) (h : s.failed = false) :
    (extractInt s).2.failed = (extractInt s).1.isNone := by
  simp [extractInt, h]

instance badIntToken_decidable (b : List Char) : Decidable (badIntToken b) := by
  unfold badIntToken
  infer_instance

/-! ### Claims -/

/-- C1: for every parsed value `v` and bounds `low ≤ high`, the
range-checked reader returns `v` unchanged exactly when `low ≤ v ≤ high`;
when `v` is out of range it emits the out-of-range message, requests
additional input from the type-checked reader, and any value it does
return lies within the bounds and is therefore never `v`. -/
theorem claim_C1_range_reader_returns_iff_in_range {α : Type} [LinearOrder α]
    (reader : Nat → IStream → Option (α × IStream × List String))
    (low high : α) (msg : String) (fuelR fuel : Nat) (s : IStream)
    (v : α) (s1 : IStream) (out : List String)
    (hlh : low ≤ high) (hr : reader fuel s = some (v, s1, out)) :
    ((low ≤ v ∧ v ≤ high) →
      read_in_range reader low high msg fuelR fuel s = some (v, s1, out)) ∧
    ((v < low ∨ v > high) →
      ∀ r' s' out', read_in_range reader low high msg fuelR fuel s = some (r', s', out') →
        low ≤ r' ∧ r' ≤ high ∧ r' ≠ v ∧ ∃ out'', out' = out ++ msg :: out'') := by
  constructor
  · intro hin
    rw [read_in_range, hr]
    exact rangeLoopGo_in_range reader low high msg fuelR fuel v s1 out
      (not_or.mpr ⟨not_lt.mpr hin.1, not_lt.mpr hin.2⟩)
  · intro hout r' s' out' hres
    rw [read_in_range, hr] at hres
    cases fuelR with
    | zero =>
      rw [rangeLoopGo_out_zero reader low high msg fuel v s1 out hout] at hres
      exact absurd hres (by simp)
    | succ k =>
      rw [rangeLoopGo_out_succ reader low high msg k fuel v s1 out hout] at hres
      obtain ⟨out'', hx, hout'⟩ := map_out_eq_some (fun l => out ++ msg :: l) hres
      have hb := rangeLoopGo_bounds reader low high msg fuel k (reader fuel s1) r' s' out'' hx
      refine ⟨hb.1, hb.2, ?_, ⟨out'', hout'⟩⟩
      rintro rfl
      rcases hout with h1 | h1
      · exact absurd hb.1 (not_le.mpr h1)
      · exact absurd hb.2 (not_le.mpr h1)

theorem claim_C1_witness :
    (6 : Int) ≤ 37 ∧
    read_int 0 ⟨"10\n".toList, false⟩ = some (10, ⟨['\n'], false⟩, []) ∧
    read_in_range read_int 6 37 (rangeMsgInt 6 37) 1 0 ⟨"10\n".toList, false⟩ =
      some (10, ⟨['\n'], false⟩, []) :=
  ⟨by decide, by decide,
    (claim_C1_range_reader_returns_iff_in_range read_int 6 37 (rangeMsgInt 6 37) 1 0
      ⟨"10\n".toList, false⟩ 10 ⟨['\n'], false⟩ [] (by decide) (by decide)).1
      (by decide)⟩

/-- C2 counterexample: the claim asserts that with a boolean element
target the numeric lexical form `1` is accepted as a valid boolean
input; in fact `cin >> boolalpha` extraction parses `1` as neither
boolean value — it fails. -/
theorem claim_C2_counterexample :
    ¬((extractBoolAlpha ⟨['1'], false⟩).1 = some true ∨
      (extractBoolAlpha ⟨['1'], false⟩).1 = some false) := by decide

/-- C2 (amended): with a boolean element target, the reader accepts
exactly the textual lexical forms `true` and `false`; the numeric forms
`1` and `0` are rejected because the `boolalpha` manipulator is set.  On
inputs `maybe` then `true`, `maybe` is rejected with one retry message
and `true` is parsed as boolean true and accepted. -/
theorem claim_C2_boolalpha_textual_forms_only :
    (extractBoolAlpha ⟨"true\n".toList, false⟩).1 = some true ∧
    (extractBoolAlpha ⟨"false\n".toList, false⟩).1 = some false ∧
    (extractBoolAlpha ⟨"1\n".toList, false⟩).1 = none ∧
    (extractBoolAlpha ⟨"0\n".toList, false⟩).1 = none ∧
    read_element_bool 1 ⟨"maybe\ntrue\n".toList, false⟩ =
      some (true, ⟨['\n'], false⟩, [elemBoolErrMsg]) := by decide

/-- C4: in every execution of the range-checked reader, a range
comparison is applied only to values returned by the type-checked
reader: the instrumented loop agrees with the actual one, performs no
comparison when the reader produces no value, and every compared value
is the value of a successful reader call. -/
theorem claim_C4_range_compares_only_type_checked_values {α : Type} [LinearOrder α]
    (reader : Nat → IStream → Option (α × IStream × List String))
    (low high : α) (msg : String) (fuelR fuel : Nat) (s : IStream) :
    (read_in_range_tr reader low high msg fuelR fuel s).1 =
      read_in_range reader low high msg fuelR fuel s ∧
    (reader fuel s = none →
      (read_in_range_tr reader low high msg fuelR fuel s).2 = []) ∧
    (∀ v ∈ (read_in_range_tr reader low high msg fuelR fuel s).2,
      ∃ s' s₁ out, reader fuel s' = some (v, s₁, out)) := by
  refine ⟨?_, ?_, ?_⟩
  · rw [read_in_range_tr, read_in_range]
    exact rangeLoopTr_fst reader low high msg fuel fuelR (reader fuel s)
  · exact read_in_range_tr_none reader low high msg fuelR fuel s
  · intro v hv
    exact rangeLoopTr_src reader low high msg fuel fuelR s v hv

theorem claim_C4_witness :
    (3 : Int) ∈ (read_in_range_tr read_int 6 37 (rangeMsgInt 6 37) 1 0
        ⟨"3\n7\n".toList, false⟩).2 ∧
    ∃ s' s₁ out, read_int 0 s' = some (3, s₁, out) :=
  ⟨by decide,
    (claim_C4_range_compares_only_type_checked_values read_int 6 37 (rangeMsgInt 6 37)
      1 0 ⟨"3\n7\n".toList, false⟩).2.2 3 (by decide)⟩

/-- C5: the readers propagate no error to the caller: whenever `read_int`
returns, the returned value came from a successful extraction and the
stream is left in a good state, and whenever the range-checked reader
returns, the returned value lies within the bounds; the only non-value
outcome in the embedding is the fuel running out, which corresponds to
the unbounded loop still retrying. -/
theorem claim_C5_no_error_propagation :
    (∀ (f : Nat) (s : IStream) (v : Int) (s' : IStream) (out : List String),
      read_int f s = some (v, s', out) →
        s'.failed = false ∧ ∃ s₀, extractInt s₀ = (some v, s')) ∧
    (∀ (low high : Int) (fuelR fuel : Nat) (s : IStream) (r : Int) (s' : IStream)
      (out : List String),
      read_int_in_range low high fuelR fuel s = some (r, s', out) →
        low ≤ r ∧ r ≤ high) := by
  constructor
  · intro f s v s' out h
    rw [read_int_eq] at h
    refine ⟨readLoop_ret_good extractInt intErrMsg f (extractInt s) v s' out h, ?_⟩
    rcases readLoop_ret_src extractInt intErrMsg f (extractInt s) v s' out h with hc | hc
    · exact ⟨s, hc⟩
    · exact hc
  · intro low high fuelR fuel s r s' out h
    rw [read_int_in_range, read_in_range] at h
    exact rangeLoopGo_bounds read_int low high (rangeMsgInt low high) fuel fuelR
      (read_int fuel s) r s' out h

theorem claim_C5_witness :
    (⟨['\n'], false⟩ : IStream).failed = false ∧
    (∃ s₀, extractInt s₀ = (some 7, ⟨['\n'], false⟩)) ∧
    (6 : Int) ≤ 7 ∧ (7 : Int) ≤ 37 := by
  have h1 := claim_C5_no_error_propagation.1 0 ⟨"7\n".toList, false⟩ 7
    ⟨['\n'], false⟩ [] (by decide)
  have h2 := claim_C5_no_error_propagation.2 6 37 0 0 ⟨"7\n".toList, false⟩ 7
    ⟨['\n'], false⟩ [] (by decide)
  exact ⟨h1.1, h1.2, h2.1, h2.2⟩

/-- C6: on every parse failure the reader first clears the stream's error
state, then discards up to 80 characters or up to a line terminator with
`ignore(80, newline)`, then emits the invalid-type message naming the
expected type, and then retries; shown for `read_int` (message naming
"whole number") and `read_element` (message naming `ELEMENT_NAME`). -/
theorem claim_C6_failure_recovery_sequence (f : Nat) (s : IStream)
    (hgood : s.failed = false) (hfail : (extractInt s).1 = none) :
    read_int (f + 1) s =
      (read_int f (((extractInt s).2.clear).ignore 80 '\n')).map
        (fun x => (x.1, x.2.1, intErrMsg :: x.2.2)) ∧
    (∃ p q, intErrMsg = p ++ "whole number" ++ q) ∧
    read_element (f + 1) s =
      (read_element f (((extractInt s).2.clear).ignore 80 '\n')).map
        (fun x => (x.1, x.2.1, elemErrMsg :: x.2.2)) ∧
    (∃ p q, elemErrMsg = p ++ ELEMENT_NAME ++ q) := by
  have hf : (extractInt s).2.failed = true := by
    rw [extractInt_failed_iff s hgood, hfail]
    rfl
  refine ⟨?_, ⟨"Invalid data type, should be a ", ", try again: ", rfl⟩, ?_,
    ⟨"Invalid data type, should be an element (", "), try again: ", rfl⟩⟩
  · rw [read_int_eq (f + 1) s,
      readLoop_bad_succ extractInt intErrMsg f (extractInt s) hf]
    rfl
  · show readT extractInt elemErrMsg (f + 1) s = _
    rw [readT, readLoop_bad_succ extractInt elemErrMsg f (extractInt s) hf]
    rfl

theorem claim_C6_witness :
    (⟨"abc\n5\n".toList, false⟩ : IStream).failed = false ∧
    (extractInt ⟨"abc\n5\n".toList, false⟩).1 = none ∧
    read_int 2 ⟨"abc\n5\n".toList, false⟩ =
      (read_int 1 (((extractInt ⟨"abc\n5\n".toList, false⟩).2.clear).ignore 80 '\n')).map
        (fun x => (x.1, x.2.1, intErrMsg :: x.2.2)) :=
  ⟨by decide, by decide,
    (claim_C6_failure_recovery_sequence 1 ⟨"abc\n5\n".toList, false⟩
      (by decide) (by decide)).1⟩

/-- C8: the bounds of the range-checked readers are inclusive at both
ends: in the int demo with bounds 6 and 37 the inputs 3 and 50 are
rejected as out of range and 6 is accepted and returned; in the float
demo with bounds 5.5 and 42.8 the inputs 5.5 and 42.8 are accepted
(inclusive ends) while 42.81 is rejected; the demo bounds equal the
literals 5.5 and 42.8. -/
theorem claim_C8_inclusive_bounds_scenarios :
    demo_int_type_and_range_checking 2 0 ⟨"3\n50\n6\n".toList, false⟩ =
      some (6, ⟨['\n'], false⟩, [rangeMsgInt 6 37, rangeMsgInt 6 37]) ∧
    demo_float_type_and_range_checking 0 0 ⟨"5.5\n".toList, false⟩ =
      some (FLOAT_DEMO_LOW, ⟨['\n'], false⟩, []) ∧
    demo_float_type_and_range_checking 0 0 ⟨"42.8\n".toList, false⟩ =
      some (FLOAT_DEMO_HIGH, ⟨['\n'], false⟩, []) ∧
    demo_float_type_and_range_checking 1 0 ⟨"42.81\n7\n".toList, false⟩ =
      some (Rat.divInt 7 1, ⟨['\n'], false⟩, [rangeMsg "5.5" "42.8"]) ∧
    FLOAT_DEMO_LOW = (5.5 : Rat) ∧ FLOAT_DEMO_HIGH = (42.8 : Rat) := by
  refine ⟨by decide, by decide, by decide, by decide, ?_, ?_⟩
  · rw [FLOAT_DEMO_LOW, Rat.divInt_eq_div]; norm_num
  · rw [FLOAT_DEMO_HIGH, Rat.divInt_eq_div]; norm_num

/-- C9: every reader returns only when the stream's fail flag is clear:
on return from `read_int`, `read_float` or `read_element` the stream is
in a good state. -/
theorem claim_C9_stream_good_on_return :
    (∀ (f : Nat) (s : IStream) (v : Int) (s' : IStream) (out : List String),
      read_int f s = some (v, s', out) → s'.good = true) ∧
    (∀ (f : Nat) (s : IStream) (v : Rat) (s' : IStream) (out : List String),
      read_float f s = some (v, s', out) → s'.good = true) ∧
    (∀ (f : Nat) (s : IStream) (v : Int) (s' : IStream) (out : List String),
      read_element f s = some (v, s', out) → s'.good = true) := by
  refine ⟨?_, ?_, ?_⟩ <;> intro f s v s' out h <;>
    simp [IStream.good, readLoop_ret_good _ _ f _ v s' out h]

theorem claim_C9_witness :
    (⟨['\n'], false⟩ : IStream).good = true ∧
    read_float 0 ⟨"2.5\n".toList, false⟩ =
      some (Rat.divInt 25 10, ⟨['\n'], false⟩, []) :=
  ⟨claim_C9_stream_good_on_return.2.1 0 ⟨"2.5\n".toList, false⟩ (Rat.divInt 25 10)
      ⟨['\n'], false⟩ [] (by decide),
    by decide⟩

/-- C10: on a successful parse the reader consumes exactly the parsed
token's characters and discards nothing else: an in-range digit token
with non-digit trailing characters is accepted as its value with the
trailing characters left in the buffer, where the next read sees them;
in particular `5abc` yields 5 leaving `abc`, and the next read then
rejects `abc` and reads 7.  Buffered input is discarded only on a failed
parse — as the last conjunct shows, an out-of-`int`-range digit literal
takes the failure path (discard and re-prompt) rather than this
success path. -/
theorem claim_C10_success_consumes_only_token (ds : List Char) (c : Char)
    (t : List Char) (f : Nat) (hne : ds ≠ []) (hds : ∀ x ∈ ds, x.isDigit = true)
    (hc : c.isDigit = false) (hbound : digitsVal ds ≤ intMaxMag) :
    read_int f ⟨ds ++ c :: t, false⟩ =
      some (((digitsVal ds : Nat) : Int), ⟨c :: t, false⟩, []) ∧
    read_int 0 ⟨"5abc\n7\n".toList, false⟩ =
      some (5, ⟨"abc\n7\n".toList, false⟩, []) ∧
    read_int 1 ⟨"abc\n7\n".toList, false⟩ =
      some (7, ⟨['\n'], false⟩, [intErrMsg]) ∧
    read_int 1 ⟨"2147483648\n7\n".toList, false⟩ =
      some (7, ⟨['\n'], false⟩, [intErrMsg]) := by
  refine ⟨?_, by decide, by decide, by decide⟩
  match ds with
  | [] => exact absurd rfl hne
  | d :: ds' =>
    have hd : d.isDigit = true := hds d (List.mem_cons_self d ds')
    have hws : isWS d = false := not_ws_of_digit hd
    have hsplit := takeWhile_dropWhile_append Char.isDigit (d :: ds') c t hds hc
    have h1 : List.takeWhile Char.isDigit (d :: (ds' ++ c :: t)) = d :: ds' := by
      simpa using hsplit.1
    have h2 : List.dropWhile Char.isDigit (d :: (ds' ++ c :: t)) = c :: t := by
      simpa using hsplit.2
    have hex : extractInt ⟨(d :: ds') ++ c :: t, false⟩ =
        (some ((digitsVal (d :: ds') : Nat) : Int), ⟨c :: t, false⟩) := by
      simp [extractInt, List.cons_append, dropWS, hws, extractIntCore,
        digit_ne_dash hd, digit_ne_plus hd, h1, h2, hbound]
    rw [read_int_eq, hex, readLoop_good extractInt intErrMsg f _ (by rfl)]
    rfl

theorem claim_C10_witness :
    read_int 3 ⟨['5'] ++ 'a' :: "bc\n7\n".toList, false⟩ =
      some (((digitsVal ['5'] : Nat) : Int), ⟨'a' :: "bc\n7\n".toList, false⟩, []) :=
  (claim_C10_success_consumes_only_token ['5'] 'a' "bc\n7\n".toList 3
    (by decide) (by decide) (by decide) (by decide)).1
